import Mathlib

/-!
Verification of the receive-side core of the DRBD replication engine
against its natural-language specification.  The definitions below are a
shallow embedding of the C source (drbd_receiver.c); machine integers are
modelled as `Nat`/`Int` with explicit wrap-around where the code relies
on it.
-/

namespace Drbd

/-! ## Per-connection peer sequence numbers (seq_greater / seq_max / update_peer_seq) -/

/-- Signed 32-bit view of a natural number, as a C `(s32)` cast. -/
def s32view (x : Nat) : Int :=
  if x % 4294967296 < 2147483648 then (x % 4294967296 : Int)
  else (x % 4294967296 : Int) - 4294967296

/-- seq_greater from the source: `(s32)a - (s32)b > 0` in wrapping 32-bit
signed arithmetic, i.e. the signed view of `(a - b) mod 2^32` is positive. -/
def seq_greater (a b : Nat) : Bool :=
  decide (0 < s32view ((a + (4294967296 - b % 4294967296)) % 4294967296))

/-- seq_max from the source. -/
def seq_max (a b : Nat) : Nat :=
  if seq_greater a b then a else b

/-- update_peer_seq from the source: under RESOLVE_CONFLICTS the stored
`peer_seq` becomes `seq_max` of the old value and the packet's value;
otherwise it is left unchanged. -/
def update_peer_seq (resolve_conflicts : Bool) (peer_seq packet_seq : Nat) : Nat :=
  if resolve_conflicts then seq_max peer_seq packet_seq else peer_seq

/-! ## Frame codec (decode_header) -/

/-- Big-endian 16-bit read of two bytes. -/
def be16 (b0 b1 : Nat) : Nat := (b0 % 256) * 256 + b1 % 256

/-- Big-endian 32-bit read of four bytes. -/
def be32 (b0 b1 b2 b3 : Nat) : Nat :=
  ((b0 % 256) * 256 + b1 % 256) * 65536 + (b2 % 256) * 256 + b3 % 256

/-- Big-endian 16-bit read at offset `i` of a byte buffer. -/
def be16at (h : List Nat) (i : Nat) : Nat := be16 (h.getD i 0) (h.getD (i+1) 0)

/-- Big-endian 32-bit read at offset `i` of a byte buffer. -/
def be32at (h : List Nat) (i : Nat) : Nat :=
  be32 (h.getD i 0) (h.getD (i+1) 0) (h.getD (i+2) 0) (h.getD (i+3) 0)

/-- Signed 16-bit view, as the C `(s16)` cast of a 16-bit big-endian field. -/
def s16view (x : Nat) : Int :=
  if x % 65536 < 32768 then (x % 65536 : Int) else (x % 65536 : Int) - 65536

/-- Modelled from the spec: wire magic of the v80 header (the struct
declarations live in a header file that is not part of src/). -/
def DRBD_MAGIC : Nat := 0x83740267

/-- Modelled from the spec: 16-bit wire magic of the v95 ("big") header. -/
def DRBD_MAGIC_BIG : Nat := 0x5BE4

/-- Modelled from the spec: wire magic of the v100 header. -/
def DRBD_MAGIC_100 : Nat := 0xD0E9A33B

/-- Modelled from the spec: byte layouts of the three header variants
(v80: magic(4) command(2) length(2); v95: magic(2) command(2) length(4);
v100: magic(4) command(2) length(4) volume(2) pad(2)), hence the sizes
below; the negotiated protocol version selects which size is read. -/
def drbd_header_size (agreed_pro_version : Nat) : Nat :=
  if 100 ≤ agreed_pro_version then 14 else 8

/-- Decoded packet info: command, payload length, volume number. -/
structure packet_info where
  vnr : Int
  cmd : Nat
  size : Nat
deriving DecidableEq, Repr

/-- decode_header from the source: pick the header layout from the
negotiated protocol version, validate the magic (and, for the v100 layout,
that the pad field is zero) and extract command, length and volume.
A failed magic or pad check yields `-EINVAL` (-22). -/
def decode_header (agreed_pro_version : Nat) (h : List Nat) : Except Int packet_info :=
  let header_size := drbd_header_size agreed_pro_version
  if header_size = 14 ∧ be32at h 0 = DRBD_MAGIC_100 then
    if be16at h 12 ≠ 0 then Except.error (-22)
    else Except.ok ⟨s16view (be16at h 10), be16at h 4, be32at h 6⟩
  else if header_size = 8 ∧ be16at h 0 = DRBD_MAGIC_BIG then
    Except.ok ⟨0, be16at h 2, be32at h 4⟩
  else if header_size = 8 ∧ be32at h 0 = DRBD_MAGIC then
    Except.ok ⟨0, be16at h 4, be16at h 6⟩
  else Except.error (-22)

/-! ## Sync handshake (drbd_uuid_compare and its version fixups)

A `UuidView` is one side's UUID state as seen by the compare function:
the current UUID, the crashed-primary flag, the bitmap UUID kept for the
other node of the pair (`bmSelf` — locally `drbd_bitmap_uuid(peer_device)`,
on the peer side `bitmap_uuids[node_id]`), the bitmap UUIDs kept for third
nodes (`bmOthers` — locally `md.peers[i].bitmap_uuid` for `i` other than
`bitmap_index`, on the peer side the other `bitmap_uuids` slots), and the
history UUIDs. -/

structure UuidView where
  current : Nat
  crashedPrimary : Bool
  bmSelf : Nat
  bmOthers : List Nat
  hist : List Nat
deriving DecidableEq, Repr

/-- The `& ~((u64)1)` masking applied to every UUID before comparison. -/
def umask (u : Nat) : Nat := 2 * (u / 2)

/-- Modelled from the original headers (not part of src/): the marker value
of a freshly created UUID. -/
def UUID_JUST_CREATED : Nat := 4

/-- Modelled from the original headers (not part of src/): offset added to a
UUID when a new bitmap UUID is generated at resync start. -/
def UUID_NEW_BM_OFFSET : Nat := 0x0001000000000000

/-- uuid_fixup_resync_end from the source (protocol < 110 dialect): detects
a missed resync-finished event when exactly one side still has a bitmap
UUID against the other.  Returns the compare result and the rule number, or
none when the fixup does not apply (the source returns -2000 there). -/
def uuid_fixup_resync_end (ver : Nat) (a b : UuidView) (rule_nr : Nat) : Option (Int × Nat) :=
  if b.bmSelf = 0 ∧ a.bmSelf ≠ 0 then
    if ver < 91 then some (-1091, rule_nr)
    else if umask a.bmSelf = umask (b.hist.getD 0 0) ∧
            umask (a.hist.getD 0 0) = umask (b.hist.getD 0 0) then some (1, 34)
    else some (1, 36)
  else if a.bmSelf = 0 ∧ b.bmSelf ≠ 0 then
    if ver < 91 then some (-1091, rule_nr)
    else if umask (a.hist.getD 0 0) = umask b.bmSelf ∧
            umask (a.hist.getD 1 0) = umask (b.hist.getD 0 0) then some (-1, 35)
    else some (-1, 37)
  else none

/-- uuid_fixup_resync_start1 from the source (protocol < 110 dialect):
detects a lost P_SYNC_UUID packet where this side was sync source. -/
def uuid_fixup_resync_start1 (ver : Nat) (a b : UuidView) (_rule_nr : Nat) : Option (Int × Nat) :=
  if umask a.current = umask (b.hist.getD 0 0) then
    if (if ver < 96 then umask (a.hist.getD 0 0) = umask (b.hist.getD 1 0)
        else umask (b.hist.getD 0 0) + UUID_NEW_BM_OFFSET = umask b.bmSelf) then
      if ver < 91 then some (-1091, 51) else some (-1, 51)
    else none
  else none

/-- uuid_fixup_resync_start2 from the source (protocol < 110 dialect):
detects a lost P_SYNC_UUID packet where this side was sync target. -/
def uuid_fixup_resync_start2 (ver : Nat) (a b : UuidView) (_rule_nr : Nat) : Option (Int × Nat) :=
  if umask (a.hist.getD 0 0) = umask b.current then
    if (if ver < 96 then umask (a.hist.getD 1 0) = umask (b.hist.getD 0 0)
        else umask (a.hist.getD 0 0) + UUID_NEW_BM_OFFSET = umask a.bmSelf) then
      if ver < 91 then some (-1091, 71) else some (1, 71)
    else none
  else none

/-- The rule-40 branch of drbd_uuid_compare: both current UUIDs are equal, so
decide from the crashed-primary flags; with two crashed primaries the
RESOLVE_CONFLICTS flag (`dc` in the source) picks the direction. -/
def uuid_compare_rule40 (dc : Bool) (a b : UuidView) : Int :=
  match (if a.crashedPrimary then 1 else 0) + (if b.crashedPrimary then 2 else 0) with
  | 0 => 0
  | 1 => 1
  | 2 => -1
  | _ => if dc then -1 else 1

/-- drbd_uuid_compare from the source, returning the rule-encoded result and
the rule number.  `ver` is the connection's agreed protocol version and `dc`
the RESOLVE_CONFLICTS connection flag.  The protocol < 110 fixups are taken
but, as in the source, their UUID rewrites matter only for their own return
value since the function returns right after a successful fixup. -/
def drbd_uuid_compare (ver : Nat) (dc : Bool) (a b : UuidView) : Int × Nat :=
  let self := umask a.current
  let peer := umask b.current
  if self = UUID_JUST_CREATED ∧ peer = UUID_JUST_CREATED then (0, 10)
  else if (self = UUID_JUST_CREATED ∨ self = 0) ∧ peer ≠ UUID_JUST_CREATED then (-2, 20)
  else if self ≠ UUID_JUST_CREATED ∧ (peer = UUID_JUST_CREATED ∨ peer = 0) then (2, 30)
  else if self = peer then
    match (if ver < 110 then uuid_fixup_resync_end ver a b 30 else none) with
    | some r => r
    | none => (uuid_compare_rule40 dc a b, 40)
  else if self = umask b.bmSelf then (-1, 50)
  else if (b.bmSelf :: b.bmOthers).any (fun u => umask u = self) then (-3, 52)
  else
    match (if ver < 110 then uuid_fixup_resync_start1 ver a b 52 else none) with
    | some r => r
    | none =>
      if b.hist.any (fun u => umask u = self) then (-2, 60)
      else if umask a.bmSelf = peer then (1, 70)
      else if a.bmOthers.any (fun u => umask u = peer) then (3, 72)
      else
        match (if ver < 110 then uuid_fixup_resync_start2 ver a b 72 else none) with
        | some r => r
        | none =>
          if a.hist.any (fun u => umask u = peer) then (2, 80)
          else if umask a.bmSelf = umask b.bmSelf ∧ umask a.bmSelf ≠ 0 then (100, 90)
          else if a.hist.any (fun u => b.hist.any (fun v => umask u = umask v)) then (-100, 100)
          else (-1000, 100)

/-- The six cross-match guards of rules 50-80: a.current against the peer's
bitmap UUIDs and history, and b.current against the local bitmap UUIDs and
history (all after masking). -/
def uuidCrossGuards (a b : UuidView) : List Bool :=
  [umask a.current = umask b.bmSelf,
   b.bmOthers.any (fun u => umask u = umask a.current),
   b.hist.any (fun u => umask u = umask a.current),
   umask a.bmSelf = umask b.current,
   a.bmOthers.any (fun u => umask u = umask b.current),
   a.hist.any (fun u => umask u = umask b.current)]

/-- At most one entry of a Boolean list is true. -/
def atMostOne (l : List Bool) : Bool := (l.filter id).length ≤ 1

/-! ## Epoch engine (drbd_may_finish_epoch)

The connection's epochs are modelled as a list in FIFO order: head =
oldest, last = `connection->current_epoch`.  In the circular list of the
source, `epoch->list.prev == &connection->current_epoch->list` says the
epoch is the oldest, i.e. at index 0 here (which also covers the
single-epoch case where the current epoch is its own predecessor). -/

/-- Write ordering modes (WO_NONE < WO_DRAIN_IO < WO_BDEV_FLUSH <
WO_BIO_BARRIER); WO_DRAIN_IO is rendered `wo_drain` here. -/
inductive write_ordering_e
| wo_none
| wo_drain
| wo_bdev_flush
| wo_bio_barrier
deriving DecidableEq, Repr

/-- One epoch object: barrier number, the two counters and the DE_* flags. -/
structure Epoch where
  barrier_nr : Nat
  epoch_size : Int
  active : Int
  deHaveBarrierNumber : Bool
  deContainsABarrier : Bool
  deBarrierInNextEpochIssued : Bool
  deBarrierInNextEpochDone : Bool
  deIsFinishing : Bool
deriving DecidableEq, Repr

/-- The event alphabet of drbd_may_finish_epoch; the EV_CLEANUP modifier is
carried separately. -/
inductive epoch_event
| ev_put
| ev_got_barrier_nr
| ev_barrier_done
| ev_became_last
deriving DecidableEq, Repr

inductive finish_epoch
| fe_still_live
| fe_destroyed
| fe_recycled
deriving DecidableEq, Repr

/-- Result of drbd_may_finish_epoch: the updated epoch list, the return
value, the barrier acks sent (barrier_nr, epoch_size), and whether an
asynchronous flush was scheduled. -/
structure MFEResult where
  epochs : List Epoch
  rv : finish_epoch
  acks : List (Nat × Int)
  schedule_flush : Bool
deriving DecidableEq, Repr

/-- The switch at the top of the drbd_may_finish_epoch loop body.
`epoch_size` is the value read before the switch; the EV_GOT_BARRIER_NR
case clears DE_CONTAINS_A_BARRIER when the write ordering just left
WO_BIO_BARRIER and this is the current epoch of size one. -/
def apply_epoch_event (wo : write_ordering_e) (isCurrent : Bool) (epoch_size : Int)
    (ev : epoch_event) (e : Epoch) : Epoch :=
  match ev with
  | .ev_put => { e with active := e.active - 1 }
  | .ev_got_barrier_nr =>
      let e1 := { e with deHaveBarrierNumber := true }
      if e1.deContainsABarrier ∧ epoch_size = 1 ∧ wo ≠ .wo_bio_barrier ∧ isCurrent then
        { e1 with deContainsABarrier := false }
      else e1
  | .ev_barrier_done => { e with deBarrierInNextEpochDone := true }
  | .ev_became_last => e

/-- The finish preconditions of drbd_may_finish_epoch: nonzero size, no
active members, a barrier number (or cleanup), oldest in the list, and not
already finishing. -/
def epoch_finish_conds (cleanup : Bool) (isOldest : Bool) (epoch_size : Int)
    (e : Epoch) : Bool :=
  epoch_size ≠ 0 ∧ e.active = 0 ∧ (e.deHaveBarrierNumber ∨ cleanup = true) ∧
    isOldest = true ∧ ¬e.deIsFinishing

/-- The immediate-finish condition: barrier-in-next-epoch done, or write
ordering none, or a single-request barrier epoch, or cleanup. -/
def epoch_finish_now (wo : write_ordering_e) (cleanup : Bool) (epoch_size : Int)
    (e : Epoch) : Bool :=
  e.deBarrierInNextEpochDone ∨ wo = .wo_none ∨
    (epoch_size = 1 ∧ e.deContainsABarrier) ∨ cleanup = true

/-- Recycling the current epoch: flags and size reset, active (already 0)
and barrier number kept. -/
def recycle_epoch (e : Epoch) : Epoch :=
  { barrier_nr := e.barrier_nr, epoch_size := 0, active := e.active,
    deHaveBarrierNumber := false, deContainsABarrier := false,
    deBarrierInNextEpochIssued := false, deBarrierInNextEpochDone := false,
    deIsFinishing := false }

/-- The do/while loop of drbd_may_finish_epoch.  `i` is the index of the
epoch under consideration (the initial target; after a destroy the loop
continues with the successor, which occupies the same index of the
shortened list and always index 0 in practice since only the oldest epoch
can finish). -/
def mfe_loop (wo : write_ordering_e) (cleanup : Bool) :
    Nat → List Epoch → Nat → epoch_event → finish_epoch → List (Nat × Int) → MFEResult
  | 0, es, _, _, rv, acks => ⟨es, rv, acks, false⟩
  | fuel+1, es, i, ev, rv, acks =>
    match es.get? i with
    | none => ⟨es, rv, acks, false⟩
    | some e =>
      let isCurrent : Bool := i = es.length - 1
      let epoch_size := e.epoch_size
      let e1 := apply_epoch_event wo isCurrent epoch_size ev e
      let conds := epoch_finish_conds cleanup (decide (i = 0)) epoch_size e1
      let fin := conds && epoch_finish_now wo cleanup epoch_size e1
      let sched := conds && !fin && !e1.deBarrierInNextEpochIssued &&
                   decide (wo = .wo_bio_barrier)
      if fin then
        let e2 := { e1 with deIsFinishing := true }
        let acks1 := if cleanup then acks else acks ++ [(e2.barrier_nr, epoch_size)]
        if isCurrent then
          ⟨es.set i (recycle_epoch e2),
           if rv = .fe_still_live then .fe_recycled else rv, acks1, false⟩
        else
          mfe_loop wo cleanup fuel (es.eraseIdx i) i .ev_became_last
            (if rv = .fe_still_live then .fe_destroyed else rv) acks1
      else
        let e3 := if sched then { e1 with active := e1.active + 1 } else e1
        ⟨es.set i e3, rv, acks, sched⟩

/-- drbd_may_finish_epoch from the source: apply the event to the epoch at
index `i` and finish epochs from the head of the list as long as the finish
conditions hold. -/
def drbd_may_finish_epoch (wo : write_ordering_e) (es : List Epoch) (i : Nat)
    (ev : epoch_event) (cleanup : Bool) : MFEResult :=
  mfe_loop wo cleanup (es.length + 1) es i ev .fe_still_live []

/-! ## Conflict resolution (handle_write_conflicts, e_send_retry_write) -/

/-- One entry of the device's write_requests interval tree, keyed by
[sector, sector + (size >> 9)); `isLocal` is the source's `i->local`. -/
structure drbd_interval where
  sector : Nat
  size : Nat
  isLocal : Bool
deriving DecidableEq, Repr

/-- overlaps from the source: intervals [s1, s1 + (l1 >> 9)) and
[s2, s2 + (l2 >> 9)) intersect (sizes in bytes, sectors of 512 bytes). -/
def overlaps (s1 l1 s2 l2 : Nat) : Bool :=
  ¬(s1 + l1 / 512 ≤ s2 ∨ s2 + l2 / 512 ≤ s1)

/-- The ack packets used when a conflicting peer write is not submitted. -/
inductive ack_packet
| P_SUPERSEDED
| P_RETRY_WRITE
deriving DecidableEq, Repr

/-- e_send_discard_write from the source: always acks P_SUPERSEDED. -/
def e_send_discard_write : ack_packet := .P_SUPERSEDED

/-- e_send_retry_write from the source: P_RETRY_WRITE on agreed protocol
version at least 100, P_SUPERSEDED otherwise. -/
def e_send_retry_write (agreed_pro_version : Nat) : ack_packet :=
  if 100 ≤ agreed_pro_version then .P_RETRY_WRITE else .P_SUPERSEDED

/-- Possible outcomes of handle_write_conflicts for the incoming peer
request: submit it (no conflict, err 0), queue an ack and drop it
(err -ENOENT), or one of the waiting paths that are re-run after another
task makes progress. -/
inductive hwc_outcome
| submit
| queued_ack (ack : ack_packet)
| wait_for_remote
| defer_to_peer
deriving DecidableEq, Repr

/-- handle_write_conflicts from the source, for the first conflicting
interval found in the tree (the waiting paths loop, which is concurrency
and is represented by their outcome constructors).  The peer request's own
interval, inserted at the top of the source function, is skipped in this
scan, so `tree` holds the other entries.  Returns the outcome and whether
the peer request's interval stays in the tree (the source removes it
whenever err is nonzero). -/
def handle_write_conflicts (resolve_conflicts : Bool) (agreed_pro_version : Nat)
    (tree : List drbd_interval) (sector size : Nat) : hwc_outcome × Bool :=
  match tree.find? (fun i => overlaps i.sector i.size sector size) with
  | none => (.submit, true)
  | some i =>
    if i.isLocal then
      if resolve_conflicts then
        let discard := i.sector ≤ sector ∧
          sector + size / 512 ≤ i.sector + i.size / 512
        (.queued_ack (if discard then e_send_discard_write
                      else e_send_retry_write agreed_pro_version), false)
      else (.defer_to_peer, true)
    else (.wait_for_remote, true)

/-- receive_Data's use of the handle_write_conflicts result: on -ENOENT
(an ack was queued) it returns without submitting the write. -/
def receive_Data_submits (out : hwc_outcome) : Bool :=
  match out with
  | .submit => true
  | _ => false

/-! ## Two-phase commit receiver (receive_twopc) -/

inductive twopc_cmd
| P_TWOPC_PREPARE
| P_TWOPC_ABORT
| P_TWOPC_COMMIT
deriving DecidableEq, Repr

/-- Reply (or absence of one) produced by receive_twopc. -/
inductive twopc_reply_packet
| P_TWOPC_YES
| P_TWOPC_NO
| P_TWOPC_RETRY
| ignored
deriving DecidableEq, Repr

/-- Verdict of the state engine on the prepared change, abstracting
`enum drbd_state_rv`: at least SS_SUCCESS, SS_IN_TRANSIENT_STATE, or any
other failure. -/
inductive drbd_state_rv
| ss_success
| ss_in_transient_state
| ss_fail
deriving DecidableEq, Repr

/-- The per-resource two-phase-commit state receive_twopc works on: the
`remote_state_change` bit, the stored transaction identity
(`twopc_reply.tid` and `.initiator_node_id`), the armed two-PC timer, and
the 32-bit resource state word the transaction applies to. -/
structure twopc_resource where
  remote_state_change : Bool
  tid : Nat
  initiator_node_id : Nat
  timer_armed : Bool
  state_word : Nat
deriving DecidableEq, Repr

/-- A mask/val state change as applied on commit:
`(state & ~mask) | val` over a 32-bit word. -/
def apply_mask_val (s mask val : Nat) : Nat :=
  (s &&& (4294967295 ^^^ mask)) ||| val

/-- receive_twopc from the source, restricted to the duplicate/concurrency
skeleton the spec describes.  `rv` is the verdict the state engine returns
for the prepared change (change_peer_device_state with CS_PREPARE, which
lives in the state engine, is abstracted into this input).  Modelled from
the spec: on Commit/Abort the state engine (not part of src/) clears
`remote_state_change` and the timer is cancelled. -/
def receive_twopc (res : twopc_resource) (cmd : twopc_cmd)
    (tid initiator_node_id : Nat) (mask val : Nat) (rv : drbd_state_rv) :
    twopc_resource × twopc_reply_packet :=
  if res.remote_state_change then
    if res.initiator_node_id ≠ initiator_node_id ∨ res.tid ≠ tid then
      (res, if cmd = .P_TWOPC_PREPARE then .P_TWOPC_RETRY else .ignored)
    else if cmd = .P_TWOPC_PREPARE then
      (res, .P_TWOPC_YES)
    else
      match cmd with
      | .P_TWOPC_ABORT =>
          ({ res with remote_state_change := false, timer_armed := false }, .ignored)
      | _ =>
          let res2 : twopc_resource :=
            { res with
              remote_state_change := false
              timer_armed := false
              state_word := apply_mask_val res.state_word mask val }
          (res2, .ignored)
  else if cmd ≠ .P_TWOPC_PREPARE then
    (res, .ignored)
  else
    let res1 : twopc_resource :=
      { res with
        remote_state_change := true
        tid := tid
        initiator_node_id := initiator_node_id }
    match rv with
    | .ss_success => ({ res1 with timer_armed := true }, .P_TWOPC_YES)
    | .ss_in_transient_state => (res1, .P_TWOPC_RETRY)
    | .ss_fail => (res1, .P_TWOPC_NO)

/-! ## Inbound block validation (read_in_block) -/

/-- Modelled from the original headers (not part of src/): the maximum bio
payload, 1 MiB. -/
def DRBD_MAX_BIO_SIZE : Nat := 1048576

/-- The peer request produced by read_in_block, reduced to the fields the
claims need. -/
structure peer_request where
  sector : Nat
  size : Int
deriving DecidableEq, Repr

/-- read_in_block from the source.  `pi_size` is the frame payload length;
when integrity checking is on (and the packet is not a trim) the digest of
`dgs` bytes is read first and subtracted from the payload size.  A trim
replaces the size by the trim's own size.  The checks follow the source:
512-byte alignment, DRBD_MAX_BIO_SIZE for non-trims, device capacity
(with the sector_t conversion wrapping modulo 2^64), and, when a digest was
read, the digest comparison; each failure returns NULL (none). -/
def read_in_block (capacity sector pi_size : Nat) (trim : Bool) (trim_size : Nat)
    (integrity : Bool) (dgs : Nat) (digest_ok : Bool) : Option peer_request :=
  let dgs_eff : Nat := if ¬trim ∧ integrity then dgs else 0
  let data_size : Int := if trim then (trim_size : Int) else (pi_size : Int) - dgs_eff
  if ¬(data_size % 512 = 0) then none
  else if ¬trim ∧ (DRBD_MAX_BIO_SIZE : Int) < data_size then none
  else if (capacity : Int) < ((sector : Int) + data_size.fdiv 512) % (2 ^ 64) then none
  else if trim then some ⟨sector, data_size⟩
  else if dgs_eff ≠ 0 ∧ ¬digest_ok then none
  else some ⟨sector, data_size⟩

/-! ## RLE-compressed bitmap receive (decode_bitmap_c, recv_bm_rle_bits)

The bitstream and VLI decode helpers live in drbd_vli.h, which is not part
of src/; the bitstream is modelled from the spec as the sequence of payload
bits (least significant bit of each byte first) with the trailing pad bits
dropped, and the VLI run-length decode is an abstract parameter `vli`
returning the decoded run length and the number of bits it consumed. -/

/-- dcbp_get_code from the source: low 4 bits of the encoding byte. -/
def dcbp_get_code (encoding : Nat) : Nat := encoding &&& 0x0f

/-- dcbp_get_start from the source: bit 7 of the encoding byte. -/
def dcbp_get_start (encoding : Nat) : Bool := encoding &&& 0x80 ≠ 0

/-- dcbp_get_pad_bits from the source: bits 4-6 of the encoding byte. -/
def dcbp_get_pad_bits (encoding : Nat) : Nat := (encoding >>> 4) &&& 0x7

/-- Modelled from the original headers (not part of src/): the only
implemented compressed-bitmap encoding. -/
def RLE_VLI_Bits : Nat := 2

/-- The bits of one byte, least significant first. -/
def byte_bits_lsb (b : Nat) : List Bool := (List.range 8).map b.testBit

/-- Modelled from the spec: the bitstream over the payload bytes, with the
trailing `pad` bits dropped. -/
def bitstream_of_bytes (payload : List Nat) (pad : Nat) : List Bool :=
  let l := (payload.map byte_bits_lsb).join
  l.take (l.length - pad)

/-- The bits s..e (inclusive) as a bitmap word, as set by
drbd_bm_set_many_bits. -/
def bitmask (s e : Nat) : Nat := (2 ^ (e + 1 - s) - 1) <<< s

/-- Result of the RLE decode loop: `err` is a -EIO return, `done` the
distinction between return value 0 (transfer complete) and 1 (further
packets needed). -/
structure RleResult where
  err : Bool
  bit_offset : Nat
  bm : Nat
  done : Bool
deriving DecidableEq, Repr

/-- The loop of recv_bm_rle_bits from the source: decode runs, assign them
alternately (toggle) to clear and set segments, OR set segments into the
bitmap after the overflow check, and fail when a run claims more bits than
the stream still has (the source's `have < bits` check, performed after the
set run was applied). -/
def rle_loop (vli : List Bool → Option (Nat × Nat)) (bm_bits : Nat) :
    Nat → List Bool → Bool → Nat → Nat → RleResult
  | _, [], _, s, bm => ⟨false, s, bm, decide (s = bm_bits)⟩
  | 0, _, _, s, bm => ⟨true, s, bm, false⟩
  | fuel+1, bits, toggle, s, bm =>
    match vli bits with
    | none => ⟨true, s, bm, false⟩
    | some (rl, n) =>
      if toggle then
        if bm_bits ≤ s + rl - 1 then ⟨true, s, bm, false⟩
        else if bits.length < n then ⟨true, s, bm ||| bitmask s (s + rl - 1), false⟩
        else rle_loop vli bm_bits fuel (bits.drop n) (!toggle) (s + rl)
               (bm ||| bitmask s (s + rl - 1))
      else
        if bits.length < n then ⟨true, s, bm, false⟩
        else rle_loop vli bm_bits fuel (bits.drop n) (!toggle) (s + rl) bm

/-- The set segments the loop applies, in order: the reference decomposition
of the stream into alternating clear/set runs, keeping the set ones (only
those below bm_bits; an overflowing run is rejected before being applied,
while a set run followed by stream truncation has already been applied). -/
def rle_segments (vli : List Bool → Option (Nat × Nat)) (bm_bits : Nat) :
    Nat → List Bool → Bool → Nat → List (Nat × Nat)
  | _, [], _, _ => []
  | 0, _, _, _ => []
  | fuel+1, bits, toggle, s =>
    match vli bits with
    | none => []
    | some (rl, n) =>
      if toggle then
        if bm_bits ≤ s + rl - 1 then []
        else if bits.length < n then [(s, s + rl - 1)]
        else (s, s + rl - 1) :: rle_segments vli bm_bits fuel (bits.drop n) (!toggle) (s + rl)
      else
        if bits.length < n then []
        else rle_segments vli bm_bits fuel (bits.drop n) (!toggle) (s + rl)

/-- recv_bm_rle_bits from the source: run the loop over the whole remaining
stream (the 64-bit look-ahead window is subsumed by the abstract `vli`). -/
def recv_bm_rle_bits (vli : List Bool → Option (Nat × Nat)) (bm_bits : Nat)
    (encoding : Nat) (payload : List Nat) (bit_offset bm : Nat) : RleResult :=
  let bits := bitstream_of_bytes payload (dcbp_get_pad_bits encoding)
  rle_loop vli bm_bits (bits.length + 1) bits (dcbp_get_start encoding) bit_offset bm

/-- decode_bitmap_c from the source: dispatch on the 4-bit code; any code
other than RLE_VLI_Bits is a protocol error that switches the connection to
C_PROTOCOL_ERROR (second component true) and returns -EIO. -/
def decode_bitmap_c (vli : List Bool → Option (Nat × Nat)) (bm_bits : Nat)
    (encoding : Nat) (payload : List Nat) (bit_offset bm : Nat) : RleResult × Bool :=
  if dcbp_get_code encoding = RLE_VLI_Bits then
    (recv_bm_rle_bits vli bm_bits encoding payload bit_offset bm, false)
  else
    (⟨true, bit_offset, bm, false⟩, true)

/-! ## Theorems -/

theorem seq_greater_self (a : Nat) : seq_greater a a = false := by
  have h0 : (a + (4294967296 - a % 4294967296)) % 4294967296 = 0 := by omega
  simp [seq_greater, h0, s32view]

/-- C6 counterexample: at a = 0x80000001, b = 0x00000001 the two values are
exactly 2^31 apart, so `seq_greater` orders neither above the other; in
particular a is not ordered strictly below b, contrary to the claim. -/
theorem seq_greater_half_range_counterexample :
    seq_greater 0x00000001 0x80000001 = false ∧
    seq_greater 0x80000001 0x00000001 = false := by
  constructor <;> decide

/-- C6 (amended): the stored peer_seq is monotonically non-decreasing in the
wrap-around order under updates through seq_max (the update never yields a
value the old one is ordered above), and for a = 0x80000001, b = 0x00000001
the wrap-aware comparison does not order a above b. -/
theorem update_peer_seq_monotone (resolve_conflicts : Bool) (peer_seq packet_seq : Nat) :
    seq_greater peer_seq (update_peer_seq resolve_conflicts peer_seq packet_seq) = false ∧
    seq_greater 0x80000001 0x00000001 = false := by
  refine ⟨?_, by decide⟩
  unfold update_peer_seq seq_max
  by_cases hr : resolve_conflicts
  · by_cases hg : seq_greater peer_seq packet_seq
    · simp [hr, hg, seq_greater_self]
    · simp [hr, hg]
  · simp [hr, seq_greater_self]

/-- Reduction of drbd_uuid_compare once rules 10-40 are ruled out
(protocol ≥ 110, so the fixups are skipped). -/
theorem drbd_uuid_compare_past40 (ver : Nat) (dc : Bool) (a b : UuidView)
    (hver : 110 ≤ ver)
    (hsJC : umask a.current ≠ UUID_JUST_CREATED) (hs0 : umask a.current ≠ 0)
    (hpJC : umask b.current ≠ UUID_JUST_CREATED) (hp0 : umask b.current ≠ 0)
    (hne : umask a.current ≠ umask b.current) :
    drbd_uuid_compare ver dc a b =
      (if umask a.current = umask b.bmSelf then ((-1 : Int), 50)
       else if (b.bmSelf :: b.bmOthers).any (fun u => umask u = umask a.current) then (-3, 52)
       else if b.hist.any (fun u => umask u = umask a.current) then (-2, 60)
       else if umask a.bmSelf = umask b.current then (1, 70)
       else if a.bmOthers.any (fun u => umask u = umask b.current) then (3, 72)
       else if a.hist.any (fun u => umask u = umask b.current) then (2, 80)
       else if umask a.bmSelf = umask b.bmSelf ∧ umask a.bmSelf ≠ 0 then (100, 90)
       else if a.hist.any (fun u => b.hist.any (fun v => umask u = umask v)) then (-100, 100)
       else (-1000, 100)) := by
  have hv : ¬ ver < 110 := by omega
  simp only [drbd_uuid_compare, hv, if_false, if_neg]
  rw [if_neg (by simp [hsJC]), if_neg (by simp [hsJC, hs0, hpJC]),
      if_neg (by simp [hpJC, hp0, hsJC]), if_neg hne]

/-- C2: drbd_uuid_compare returns 0 under rule 10 when both current UUIDs
are just-created; 0 under rule 40 when the masked current UUIDs are equal
and neither side carries a crashed-primary flag; and -2 under rule 60 when
the local current UUID occurs among the peer's history UUIDs. -/
theorem drbd_uuid_compare_rules_10_40_60 (ver : Nat) (dc : Bool) (a b : UuidView)
    (hver : 110 ≤ ver) :
    (umask a.current = UUID_JUST_CREATED → umask b.current = UUID_JUST_CREATED →
      drbd_uuid_compare ver dc a b = (0, 10)) ∧
    (umask a.current = umask b.current → umask a.current ≠ UUID_JUST_CREATED →
      umask a.current ≠ 0 → a.crashedPrimary = false → b.crashedPrimary = false →
      drbd_uuid_compare ver dc a b = (0, 40)) ∧
    (umask a.current ≠ UUID_JUST_CREATED → umask a.current ≠ 0 →
      umask b.current ≠ UUID_JUST_CREATED → umask b.current ≠ 0 →
      umask a.current ≠ umask b.current →
      umask a.current ≠ umask b.bmSelf →
      ((b.bmSelf :: b.bmOthers).any (fun u => umask u = umask a.current)) = false →
      (b.hist.any (fun u => umask u = umask a.current)) = true →
      drbd_uuid_compare ver dc a b = (-2, 60)) := by
  have hv : ¬ ver < 110 := by omega
  refine ⟨?_, ?_, ?_⟩
  · intro hs hp
    simp [drbd_uuid_compare, hs, hp]
  · intro heq hsJC hs0 hac hbc
    have hpJC : umask b.current ≠ UUID_JUST_CREATED := heq ▸ hsJC
    have hp0 : umask b.current ≠ 0 := heq ▸ hs0
    simp only [drbd_uuid_compare, hv, if_false]
    rw [if_neg (by simp [hsJC]), if_neg (by simp [hsJC, hs0]),
        if_neg (by simp [hpJC, hp0]), if_pos heq]
    simp [uuid_compare_rule40, hac, hbc]
  · intro hsJC hs0 hpJC hp0 hne h50 h52 h60
    rw [drbd_uuid_compare_past40 ver dc a b hver hsJC hs0 hpJC hp0 hne,
        if_neg h50, if_neg (by simp [h52]), if_pos h60]

/-- C2 witness: a concrete rule-60 pair (the local current UUID sits in the
peer's history) yields the sync-target, set-bitmap verdict -2. -/
theorem drbd_uuid_compare_rules_10_40_60_witness :
    drbd_uuid_compare 110 false ⟨10, false, 0, [], [20]⟩ ⟨12, false, 0, [], [10]⟩ = (-2, 60) :=
  (drbd_uuid_compare_rules_10_40_60 110 false ⟨10, false, 0, [], [20]⟩ ⟨12, false, 0, [], [10]⟩
    (by decide)).2.2 (by decide) (by decide) (by decide) (by decide) (by decide) (by decide)
    (by decide) (by decide)

/-- C4: with equal masked current UUIDs and both crashed-primary flags set
(rule 40, two crashed primaries), the verdict is a split-brain resolution
whose direction is the RESOLVE_CONFLICTS flag: the resolving side becomes
sync target (-1), the other sync source (1). -/
theorem drbd_uuid_compare_two_crashed_primaries (ver : Nat) (dc : Bool) (a b : UuidView)
    (hver : 110 ≤ ver)
    (heq : umask a.current = umask b.current)
    (hsJC : umask a.current ≠ UUID_JUST_CREATED) (hs0 : umask a.current ≠ 0)
    (hac : a.crashedPrimary = true) (hbc : b.crashedPrimary = true) :
    drbd_uuid_compare ver dc a b = (if dc then -1 else 1, 40) := by
  have hv : ¬ ver < 110 := by omega
  have hpJC : umask b.current ≠ UUID_JUST_CREATED := heq ▸ hsJC
  have hp0 : umask b.current ≠ 0 := heq ▸ hs0
  simp only [drbd_uuid_compare, hv, if_false]
  rw [if_neg (by simp [hsJC]), if_neg (by simp [hsJC, hs0]),
      if_neg (by simp [hpJC, hp0]), if_pos heq]
  simp [uuid_compare_rule40, hac, hbc]

/-- C4 witness: concrete two-crashed-primaries pair with the
RESOLVE_CONFLICTS flag set resolves to sync target. -/
theorem drbd_uuid_compare_two_crashed_primaries_witness :
    drbd_uuid_compare 110 true ⟨10, true, 0, [], []⟩ ⟨10, true, 0, [], []⟩ = (-1, 40) :=
  drbd_uuid_compare_two_crashed_primaries 110 true ⟨10, true, 0, [], []⟩ ⟨10, true, 0, [], []⟩
    (by decide) (by decide) (by decide) (by decide) (by decide) (by decide)

theorem apply_epoch_event_barrier_nr (wo : write_ordering_e) (c : Bool) (sz : Int)
    (ev : epoch_event) (e : Epoch) :
    (apply_epoch_event wo c sz ev e).barrier_nr = e.barrier_nr := by
  cases ev <;> simp only [apply_epoch_event] <;> (try split) <;> rfl

theorem apply_epoch_event_isFinishing (wo : write_ordering_e) (c : Bool) (sz : Int)
    (ev : epoch_event) (e : Epoch) :
    (apply_epoch_event wo c sz ev e).deIsFinishing = e.deIsFinishing := by
  cases ev <;> simp only [apply_epoch_event] <;> (try split) <;> rfl

/-- C1: the epoch state machine.  First conjunct ("only when"): whenever
drbd_may_finish_epoch destroys or recycles anything, the targeted epoch was
the oldest in the connection's list (index 0) and, after the event is
applied, has positive size, zero active count, its barrier number (or the
event carried the cleanup modifier) and was not already finishing.  Second
conjunct: when these conditions hold together with an immediate-finish
condition (BarrierInNextDone, write-ordering None, a size-1 epoch containing
a barrier, or cleanup), the epoch is finished at once: BarrierAck(barrier_nr,
epoch_size) is sent unless cleanup is in effect, and the epoch is recycled
if it is the current epoch (the only one in the list) or destroyed
otherwise, the loop then cascading to the successor epoch. -/
theorem drbd_may_finish_epoch_spec (wo : write_ordering_e) (cleanup : Bool)
    (es : List Epoch) (i : Nat) (ev : epoch_event)
    (hsz : ∀ e ∈ es, 0 ≤ e.epoch_size) :
    ((drbd_may_finish_epoch wo es i ev cleanup).rv ≠ .fe_still_live →
      i = 0 ∧ ∃ e, es[0]? = some e ∧
        0 < e.epoch_size ∧
        (apply_epoch_event wo (decide (i = es.length - 1)) e.epoch_size ev e).active = 0 ∧
        ((apply_epoch_event wo (decide (i = es.length - 1)) e.epoch_size ev e).deHaveBarrierNumber
            = true ∨ cleanup = true) ∧
        e.deIsFinishing = false) ∧
    (∀ e rest A, es = e :: rest → i = 0 →
      A = apply_epoch_event wo (decide ((0 : Nat) = (e :: rest).length - 1)) e.epoch_size ev e →
      e.epoch_size ≠ 0 → A.active = 0 →
      (A.deHaveBarrierNumber = true ∨ cleanup = true) → A.deIsFinishing = false →
      (A.deBarrierInNextEpochDone = true ∨ wo = .wo_none ∨
        (e.epoch_size = 1 ∧ A.deContainsABarrier = true) ∨ cleanup = true) →
      (rest = [] →
        drbd_may_finish_epoch wo es i ev cleanup =
          ⟨[recycle_epoch A], .fe_recycled,
           if cleanup then [] else [(e.barrier_nr, e.epoch_size)], false⟩) ∧
      (rest ≠ [] →
        drbd_may_finish_epoch wo es i ev cleanup =
          mfe_loop wo cleanup (rest.length + 1) rest 0 .ev_became_last .fe_destroyed
            (if cleanup then [] else [(e.barrier_nr, e.epoch_size)]))) := by
  constructor
  · intro hrv
    cases hget : es[i]? with
    | none =>
        exfalso
        apply hrv
        simp [drbd_may_finish_epoch, mfe_loop, List.get?_eq_getElem?, hget]
    | some e =>
        by_cases hfin :
            (epoch_finish_conds cleanup (decide (i = 0)) e.epoch_size
              (apply_epoch_event wo (decide (i = es.length - 1)) e.epoch_size ev e) &&
             epoch_finish_now wo cleanup e.epoch_size
              (apply_epoch_event wo (decide (i = es.length - 1)) e.epoch_size ev e)) = true
        · have hconds := ((Bool.and_eq_true _ _).mp hfin).1
          simp only [epoch_finish_conds, Bool.decide_and, Bool.and_eq_true,
            decide_eq_true_eq] at hconds
          obtain ⟨hs0, ha0, hbar, hi0, hnf⟩ := hconds
          subst hi0
          refine ⟨rfl, e, hget, ?_, ha0, ?_, ?_⟩
          · have := hsz e (List.get?_mem ((List.get?_eq_getElem? es 0).trans hget))
            omega
          · rcases hbar with h | h
            · exact Or.inl h
            · exact Or.inr h
          · rw [← apply_epoch_event_isFinishing wo
              (decide ((0 : Nat) = es.length - 1)) e.epoch_size ev e]
            simpa using hnf
        · exfalso
          apply hrv
          simp only [drbd_may_finish_epoch, mfe_loop, List.get?_eq_getElem?, hget]
          simp only [Bool.not_eq_true] at hfin
          simp [hfin]
  · rintro e rest A rfl rfl hA hs0 ha0 hbar hnf hnow
    have hbn : A.barrier_nr = e.barrier_nr := by
      rw [hA]; exact apply_epoch_event_barrier_nr _ _ _ _ _
    have hcond : ∀ o : Bool, o = true →
        epoch_finish_conds cleanup o e.epoch_size A = true := by
      intro o ho
      simp only [epoch_finish_conds, Bool.decide_and, Bool.and_eq_true, decide_eq_true_eq]
      exact ⟨hs0, ha0, by rcases hbar with h | h; exacts [Or.inl h, Or.inr h], ho, by simp [hnf]⟩
    have hnow2 : epoch_finish_now wo cleanup e.epoch_size A = true := by
      simp only [epoch_finish_now, decide_eq_true_eq]
      rcases hnow with h | h | h | h
      · simp [h]
      · simp [h]
      · simp [h.1, h.2]
      · simp [h]
    constructor
    · rintro rfl
      have hA1 : apply_epoch_event wo true e.epoch_size ev e = A := hA.symm
      simp only [drbd_may_finish_epoch, mfe_loop, List.get?_cons_zero,
                 List.length_cons, List.length_nil, Nat.zero_add, Nat.add_sub_cancel,
                 Nat.sub_self, decide_True]
      rw [hA1]
      rw [hcond true rfl, hnow2]
      simp [recycle_epoch, hbn]
    · intro hne
      cases rest with
      | nil => exact absurd rfl hne
      | cons r rs =>
          have hA1 : apply_epoch_event wo false e.epoch_size ev e = A := by
            rw [hA]
            congr 1
          simp only [drbd_may_finish_epoch, mfe_loop, List.get?_cons_zero,
                     List.length_cons, List.length_nil, Nat.zero_add, Nat.add_sub_cancel,
                     decide_True]
          rw [show (decide ((0 : Nat) = rs.length + 1)) = false from
                decide_eq_false (by omega)]
          rw [hA1]
          rw [hcond true rfl, hnow2]
          simp [recycle_epoch, hbn, List.eraseIdx]

/-- C1 witness: a two-epoch list whose oldest epoch (barrier 7, size 2, one
active member, BarrierInNextDone set) receives EV_PUT: the oldest epoch is
destroyed with BarrierAck(7,2) and the loop cascades into the successor,
which here also finishes and is recycled, yielding BarrierAck(8,3). -/
theorem drbd_may_finish_epoch_spec_witness :
    drbd_may_finish_epoch .wo_bdev_flush
        [⟨7, 2, 1, true, false, false, true, false⟩,
         ⟨8, 3, 0, true, false, false, true, false⟩] 0 .ev_put false =
      mfe_loop .wo_bdev_flush false 2 [⟨8, 3, 0, true, false, false, true, false⟩] 0
        .ev_became_last .fe_destroyed [(7, 2)] ∧
    drbd_may_finish_epoch .wo_bdev_flush
        [⟨7, 2, 1, true, false, false, true, false⟩,
         ⟨8, 3, 0, true, false, false, true, false⟩] 0 .ev_put false =
      ⟨[⟨8, 0, 0, false, false, false, false, false⟩], .fe_destroyed, [(7, 2), (8, 3)], false⟩ :=
  ⟨((drbd_may_finish_epoch_spec .wo_bdev_flush false
      [⟨7, 2, 1, true, false, false, true, false⟩,
       ⟨8, 3, 0, true, false, false, true, false⟩] 0 .ev_put (by decide)).2
      ⟨7, 2, 1, true, false, false, true, false⟩
      [⟨8, 3, 0, true, false, false, true, false⟩]
      ⟨7, 2, 0, true, false, false, true, false⟩
      rfl rfl (by decide) (by decide) (by decide) (by decide) (by decide) (by decide)).2
      (by decide),
   by decide⟩

theorem atMostOne_six : ∀ b1 b2 b3 b4 b5 b6 : Bool,
    atMostOne [b1, b2, b3, b4, b5, b6] = true →
    ((b1 = true → b2 = false ∧ b3 = false ∧ b4 = false ∧ b5 = false ∧ b6 = false) ∧
     (b2 = true → b3 = false ∧ b4 = false ∧ b5 = false ∧ b6 = false) ∧
     (b3 = true → b4 = false ∧ b5 = false ∧ b6 = false) ∧
     (b4 = true → b5 = false ∧ b6 = false) ∧
     (b5 = true → b6 = false)) := by
  intro b1 b2 b3 b4 b5 b6 h
  revert h
  cases b1 <;> cases b2 <;> cases b3 <;> cases b4 <;> cases b5 <;> cases b6 <;> decide

/-- C3 counterexample: with both masked current UUIDs zero (and not
just-created), both orientations of the comparison are decided by rule 20
with result -2, so exchanging the views does not negate the result. -/
theorem drbd_uuid_compare_antisym_counterexample :
    drbd_uuid_compare 110 false ⟨0, false, 0, [], []⟩ ⟨0, false, 0, [], []⟩ = (-2, 20) ∧
    ¬((-2 : Int) = -(-2)) := by
  constructor
  · rfl
  · decide

/-- C3 (amended): for comparisons decided by rules 10 through 80,
drbd_uuid_compare is antisymmetric — exchanging the local and peer views
(with the RESOLVE_CONFLICTS flag complemented, as it is on the peer side)
negates the result — provided the masked current UUIDs are not both zero
and at most one of the six cross-match guards of rules 50-80 holds. -/
theorem drbd_uuid_compare_antisym (ver : Nat) (dc : Bool) (a b : UuidView)
    (hver : 110 ≤ ver)
    (hz : ¬(umask a.current = 0 ∧ umask b.current = 0))
    (hg : atMostOne (uuidCrossGuards a b) = true)
    (hr : (drbd_uuid_compare ver dc a b).2 ≤ 80) :
    (drbd_uuid_compare ver dc a b).1 = -(drbd_uuid_compare ver (!dc) b a).1 := by
  have hv : ¬ ver < 110 := by omega
  by_cases h10 : umask a.current = UUID_JUST_CREATED ∧ umask b.current = UUID_JUST_CREATED
  · simp [drbd_uuid_compare, h10.1, h10.2]
  by_cases h20 : (umask a.current = UUID_JUST_CREATED ∨ umask a.current = 0) ∧
      umask b.current ≠ UUID_JUST_CREATED
  · have hab : drbd_uuid_compare ver dc a b = (-2, 20) := by
      simp only [drbd_uuid_compare]
      rw [if_neg h10, if_pos h20]
    have k10 : ¬(umask b.current = UUID_JUST_CREATED ∧ umask a.current = UUID_JUST_CREATED) :=
      fun hh => h20.2 hh.1
    have k20 : ¬((umask b.current = UUID_JUST_CREATED ∨ umask b.current = 0) ∧
        umask a.current ≠ UUID_JUST_CREATED) := by
      rintro ⟨hl, hrr⟩
      rcases hl with hl | hl
      · exact h20.2 hl
      · rcases h20.1 with hs | hs
        · exact hrr hs
        · exact hz ⟨hs, hl⟩
    have hba : drbd_uuid_compare ver (!dc) b a = (2, 30) := by
      simp only [drbd_uuid_compare]
      rw [if_neg k10, if_neg k20, if_pos ⟨h20.2, h20.1⟩]
    rw [hab, hba]
  by_cases h30 : umask a.current ≠ UUID_JUST_CREATED ∧
      (umask b.current = UUID_JUST_CREATED ∨ umask b.current = 0)
  · have hab : drbd_uuid_compare ver dc a b = (2, 30) := by
      simp only [drbd_uuid_compare]
      rw [if_neg h10, if_neg h20, if_pos h30]
    have k10 : ¬(umask b.current = UUID_JUST_CREATED ∧ umask a.current = UUID_JUST_CREATED) :=
      fun hh => h30.1 hh.2
    have hba : drbd_uuid_compare ver (!dc) b a = (-2, 20) := by
      simp only [drbd_uuid_compare]
      rw [if_neg k10, if_pos ⟨h30.2, h30.1⟩]
    rw [hab, hba]
    decide
  -- now neither current UUID is just-created or zero
  have hsJC : umask a.current ≠ UUID_JUST_CREATED := by
    intro hs
    rcases not_and_or.mp h20 with h | h
    · exact h (Or.inl hs)
    · exact h10 ⟨hs, not_not.mp h⟩
  have hpJC : umask b.current ≠ UUID_JUST_CREATED := by
    intro hp
    exact h30 ⟨hsJC, Or.inl hp⟩
  have hp0 : umask b.current ≠ 0 := by
    intro hp
    exact h30 ⟨hsJC, Or.inr hp⟩
  have hs0 : umask a.current ≠ 0 := by
    intro hs
    rcases not_and_or.mp h20 with h | h
    · exact h (Or.inr hs)
    · exact hpJC (not_not.mp h)
  by_cases heq : umask a.current = umask b.current
  · have hab : drbd_uuid_compare ver dc a b = (uuid_compare_rule40 dc a b, 40) := by
      simp only [drbd_uuid_compare, hv, if_false]
      rw [if_neg h10, if_neg h20, if_neg h30, if_pos heq]
    have k10 : ¬(umask b.current = UUID_JUST_CREATED ∧ umask a.current = UUID_JUST_CREATED) :=
      fun hh => hpJC hh.1
    have k20 : ¬((umask b.current = UUID_JUST_CREATED ∨ umask b.current = 0) ∧
        umask a.current ≠ UUID_JUST_CREATED) := by
      rintro ⟨hl, _⟩
      rcases hl with hl | hl
      · exact hpJC hl
      · exact hp0 hl
    have k30 : ¬(umask b.current ≠ UUID_JUST_CREATED ∧
        (umask a.current = UUID_JUST_CREATED ∨ umask a.current = 0)) := by
      rintro ⟨_, hl⟩
      rcases hl with hl | hl
      · exact hsJC hl
      · exact hs0 hl
    have hba : drbd_uuid_compare ver (!dc) b a = (uuid_compare_rule40 (!dc) b a, 40) := by
      simp only [drbd_uuid_compare, hv, if_false]
      rw [if_neg k10, if_neg k20, if_neg k30, if_pos heq.symm]
    rw [hab, hba]
    simp only [uuid_compare_rule40]
    cases hca : a.crashedPrimary <;> cases hcb : b.crashedPrimary <;> cases dc <;> decide
  -- rules 50-80: at most one cross guard holds
  have hab := drbd_uuid_compare_past40 ver dc a b hver hsJC hs0 hpJC hp0 heq
  have hba := drbd_uuid_compare_past40 ver (!dc) b a hver hpJC hp0 hsJC hs0
    (fun h => heq h.symm)
  simp only [uuidCrossGuards] at hg
  have H := atMostOne_six _ _ _ _ _ _ hg
  by_cases g1 : umask a.current = umask b.bmSelf
  · obtain ⟨h2, h3, h4, h5, h6⟩ := H.1 (decide_eq_true g1)
    have n4 := of_decide_eq_false h4
    rw [hab, hba]
    simp [eq_true g1, eq_true g1.symm, h2, h3, eq_false n4, eq_false (Ne.symm n4), h5, h6]
  by_cases g2 : b.bmOthers.any (fun u => umask u = umask a.current) = true
  · obtain ⟨h3, h4, h5, h6⟩ := H.2.1 g2
    have n4 := of_decide_eq_false h4
    rw [hab, hba]
    simp [eq_false g1, eq_false (Ne.symm g1), g2, h3, eq_false n4, eq_false (Ne.symm n4), h5, h6]
  by_cases g3 : b.hist.any (fun u => umask u = umask a.current) = true
  · obtain ⟨h4, h5, h6⟩ := H.2.2.1 g3
    have n4 := of_decide_eq_false h4
    rw [hab, hba]
    simp [eq_false g1, eq_false (Ne.symm g1), eq_false g2, g3,
          eq_false n4, eq_false (Ne.symm n4), h5, h6]
  by_cases g4 : umask a.bmSelf = umask b.current
  · obtain ⟨h5, h6⟩ := H.2.2.2.1 (decide_eq_true g4)
    rw [hab, hba]
    simp [eq_false g1, eq_false (Ne.symm g1), eq_false g2, eq_false g3,
          eq_true g4, eq_true g4.symm, h5, h6]
  by_cases g5 : a.bmOthers.any (fun u => umask u = umask b.current) = true
  · have h6 := H.2.2.2.2 g5
    rw [hab, hba]
    simp [eq_false g1, eq_false (Ne.symm g1), eq_false g2, eq_false g3,
          eq_false g4, eq_false (Ne.symm g4), g5, h6]
  by_cases g6 : a.hist.any (fun u => umask u = umask b.current) = true
  · rw [hab, hba]
    simp [eq_false g1, eq_false (Ne.symm g1), eq_false g2, eq_false g3,
          eq_false g4, eq_false (Ne.symm g4), eq_false g5, g6]
  · rw [hab] at hr
    simp [eq_false g1, eq_false (Ne.symm g1), eq_false g2, eq_false g3,
          eq_false g4, eq_false g5, eq_false g6] at hr
    split_ifs at hr <;> simp at hr

/-- C3 witness: a concrete rule-50/rule-70 pair satisfies the amended
antisymmetry statement. -/
theorem drbd_uuid_compare_antisym_witness :
    (drbd_uuid_compare 110 true ⟨10, false, 0, [], []⟩ ⟨12, false, 10, [], []⟩).1 =
      -(drbd_uuid_compare 110 (!true) ⟨12, false, 10, [], []⟩ ⟨10, false, 0, [], []⟩).1 :=
  drbd_uuid_compare_antisym 110 true ⟨10, false, 0, [], []⟩ ⟨12, false, 10, [], []⟩
    (by decide) (by decide) (by decide) (by decide)

/-- C7 counterexample: a well-formed v80 header (no volume field) decodes
with volume number 0, not -1 as the claim states. -/
theorem decode_header_vnr_counterexample :
    decode_header 90 [0x83, 0x74, 0x02, 0x67, 0x00, 0x02, 0x00, 0x10] =
      Except.ok ⟨0, 2, 16⟩ ∧ (0 : Int) ≠ -1 := by
  constructor
  · rfl
  · decide

/-- C7 (amended): decode_header selects the layout from the negotiated
protocol version, validates the magic (and the pad for the v100 layout),
returns -EINVAL exactly when that check fails, and on success outputs the
command, payload length and volume index, with 0 (not -1) reported for the
header variants that carry no volume field. -/
theorem decode_header_spec (ver : Nat) (h : List Nat) :
    (100 ≤ ver →
      (be32at h 0 = DRBD_MAGIC_100 → be16at h 12 = 0 →
        decode_header ver h = Except.ok ⟨s16view (be16at h 10), be16at h 4, be32at h 6⟩) ∧
      (¬(be32at h 0 = DRBD_MAGIC_100 ∧ be16at h 12 = 0) →
        decode_header ver h = Except.error (-22))) ∧
    (ver < 100 →
      (be16at h 0 = DRBD_MAGIC_BIG →
        decode_header ver h = Except.ok ⟨0, be16at h 2, be32at h 4⟩) ∧
      (be16at h 0 ≠ DRBD_MAGIC_BIG → be32at h 0 = DRBD_MAGIC →
        decode_header ver h = Except.ok ⟨0, be16at h 4, be16at h 6⟩) ∧
      (be16at h 0 ≠ DRBD_MAGIC_BIG → be32at h 0 ≠ DRBD_MAGIC →
        decode_header ver h = Except.error (-22))) := by
  constructor
  · intro hver
    have hs : drbd_header_size ver = 14 := by simp [drbd_header_size, hver]
    constructor
    · intro hm hp
      simp [decode_header, hs, hm, hp]
    · intro hbad
      rcases Decidable.not_and_iff_or_not.mp hbad with hm | hp
      · simp [decode_header, hs, hm]
      · have hm : be32at h 0 = DRBD_MAGIC_100 ∨ be32at h 0 ≠ DRBD_MAGIC_100 := em _
        rcases hm with hm | hm
        · simp [decode_header, hs, hm, hp]
        · simp [decode_header, hs, hm]
  · intro hver
    have hs : drbd_header_size ver = 8 := by
      simp [drbd_header_size, Nat.not_le.mpr hver]
    refine ⟨?_, ?_, ?_⟩
    · intro hm
      simp [decode_header, hs, hm]
    · intro hm1 hm2
      simp [decode_header, hs, hm1, hm2]
    · intro hm1 hm2
      simp [decode_header, hs, hm1, hm2]

/-- C7 witness: a concrete v100 header with command 5, length 7, volume 1
and zero pad decodes successfully through decode_header_spec. -/
theorem decode_header_spec_witness :
    100 ≤ 101 ∧
    decode_header 101 [0xD0, 0xE9, 0xA3, 0x3B, 0, 5, 0, 0, 0, 7, 0, 1, 0, 0] =
      Except.ok ⟨s16view (be16at [0xD0, 0xE9, 0xA3, 0x3B, 0, 5, 0, 0, 0, 7, 0, 1, 0, 0] 10),
                 be16at [0xD0, 0xE9, 0xA3, 0x3B, 0, 5, 0, 0, 0, 7, 0, 1, 0, 0] 4,
                 be32at [0xD0, 0xE9, 0xA3, 0x3B, 0, 5, 0, 0, 0, 7, 0, 1, 0, 0] 6⟩ ∧
    s16view (be16at [0xD0, 0xE9, 0xA3, 0x3B, 0, 5, 0, 0, 0, 7, 0, 1, 0, 0] 10) = 1 ∧
    be16at [0xD0, 0xE9, 0xA3, 0x3B, 0, 5, 0, 0, 0, 7, 0, 1, 0, 0] 4 = 5 ∧
    be32at [0xD0, 0xE9, 0xA3, 0x3B, 0, 5, 0, 0, 0, 7, 0, 1, 0, 0] 6 = 7 :=
  ⟨by decide,
   ((decode_header_spec 101 [0xD0, 0xE9, 0xA3, 0x3B, 0, 5, 0, 0, 0, 7, 0, 1, 0, 0]).1
      (by decide)).1 (by decide) (by decide),
   by decide, by decide, by decide⟩

/-- C5: with RESOLVE_CONFLICTS set, a peer write that conflicts with a local
request is discarded exactly when its interval is fully contained in the
overlapping local interval (ack P_SUPERSEDED from e_send_discard_write),
and marked for retry otherwise (ack P_RETRY_WRITE when the agreed protocol
version is at least 100, P_SUPERSEDED otherwise, from e_send_retry_write);
in both cases the peer interval leaves the tree (second component false)
and receive_Data proceeds without submitting. -/
theorem handle_write_conflicts_resolver (agreed_pro_version : Nat)
    (tree : List drbd_interval) (sector size : Nat) (i : drbd_interval)
    (hfind : tree.find? (fun j => overlaps j.sector j.size sector size) = some i)
    (hloc : i.isLocal = true) :
    handle_write_conflicts true agreed_pro_version tree sector size =
      (.queued_ack
         (if i.sector ≤ sector ∧ sector + size / 512 ≤ i.sector + i.size / 512
          then .P_SUPERSEDED
          else if 100 ≤ agreed_pro_version then .P_RETRY_WRITE else .P_SUPERSEDED),
       false) ∧
    receive_Data_submits
      (handle_write_conflicts true agreed_pro_version tree sector size).1 = false := by
  have h1 : handle_write_conflicts true agreed_pro_version tree sector size =
      (.queued_ack
         (if i.sector ≤ sector ∧ sector + size / 512 ≤ i.sector + i.size / 512
          then .P_SUPERSEDED
          else if 100 ≤ agreed_pro_version then .P_RETRY_WRITE else .P_SUPERSEDED),
       false) := by
    simp only [handle_write_conflicts, hfind, hloc, if_true,
      e_send_discard_write, e_send_retry_write]
  refine ⟨h1, ?_⟩
  rw [h1]
  rfl

/-- C5 witness: a peer write of one sector at sector 2 inside a local
request covering sectors 0-7 is discarded with a P_SUPERSEDED ack and its
interval removed. -/
theorem handle_write_conflicts_resolver_witness :
    handle_write_conflicts true 101 [⟨0, 4096, true⟩] 2 512 =
      (.queued_ack .P_SUPERSEDED, false) ∧
    receive_Data_submits (handle_write_conflicts true 101 [⟨0, 4096, true⟩] 2 512).1
      = false := by
  have h := handle_write_conflicts_resolver 101 [⟨0, 4096, true⟩] 2 512 ⟨0, 4096, true⟩
    (by decide) (by decide)
  refine ⟨?_, h.2⟩
  rw [h.1]
  decide

theorem apply_mask_val_idem (s mask val : Nat) :
    apply_mask_val (apply_mask_val s mask val) mask val = apply_mask_val s mask val := by
  apply Nat.eq_of_testBit_eq
  intro k
  simp only [apply_mask_val, Nat.testBit_lor, Nat.testBit_land]
  cases hx : s.testBit k <;> cases hy : (4294967295 ^^^ mask).testBit k <;>
    cases hz : val.testBit k <;> rfl

/-- C8: receive_twopc duplicate and concurrency handling.  A Prepare
matching the transaction in progress is re-acked Yes without re-evaluation;
a Prepare for a different (initiator, tid) is answered Retry with the
stored transaction untouched; Commit or Abort with no transaction in
progress is ignored; a fresh Prepare answers Yes / Retry / No according to
the state engine verdict and arms the two-PC timer exactly on success; and
applying Prepare+Commit twice leaves the same resource state as applying it
once. -/
theorem receive_twopc_spec :
    (∀ (res : twopc_resource) (tid ini mask val : Nat) (rv : drbd_state_rv),
      res.remote_state_change = true →
      res.initiator_node_id = ini → res.tid = tid →
      receive_twopc res .P_TWOPC_PREPARE tid ini mask val rv = (res, .P_TWOPC_YES)) ∧
    (∀ (res : twopc_resource) (tid ini mask val : Nat) (rv : drbd_state_rv),
      res.remote_state_change = true →
      (res.initiator_node_id ≠ ini ∨ res.tid ≠ tid) →
      receive_twopc res .P_TWOPC_PREPARE tid ini mask val rv = (res, .P_TWOPC_RETRY)) ∧
    (∀ (res : twopc_resource) (cmd : twopc_cmd) (tid ini mask val : Nat)
        (rv : drbd_state_rv),
      res.remote_state_change = false → cmd ≠ .P_TWOPC_PREPARE →
      receive_twopc res cmd tid ini mask val rv = (res, .ignored)) ∧
    (∀ (res : twopc_resource) (tid ini mask val : Nat) (rv : drbd_state_rv),
      res.remote_state_change = false → res.timer_armed = false →
      ((receive_twopc res .P_TWOPC_PREPARE tid ini mask val rv).2 =
        match rv with
        | .ss_success => .P_TWOPC_YES
        | .ss_in_transient_state => .P_TWOPC_RETRY
        | .ss_fail => .P_TWOPC_NO) ∧
      ((receive_twopc res .P_TWOPC_PREPARE tid ini mask val rv).1.timer_armed = true ↔
        rv = .ss_success)) ∧
    (∀ (res : twopc_resource) (tid ini mask val : Nat) (rv1 rv2 : drbd_state_rv),
      res.remote_state_change = false →
      (receive_twopc
        (receive_twopc
          (receive_twopc
            (receive_twopc res .P_TWOPC_PREPARE tid ini mask val rv1).1
            .P_TWOPC_COMMIT tid ini mask val rv1).1
          .P_TWOPC_PREPARE tid ini mask val rv2).1
        .P_TWOPC_COMMIT tid ini mask val rv2).1 =
      (receive_twopc
        (receive_twopc res .P_TWOPC_PREPARE tid ini mask val rv1).1
        .P_TWOPC_COMMIT tid ini mask val rv1).1) := by
  refine ⟨?_, ?_, ?_, ?_, ?_⟩
  · intro res tid ini mask val rv h hin htid
    simp [receive_twopc, h, hin, htid]
  · intro res tid ini mask val rv h hne
    rcases hne with hne | hne <;> simp [receive_twopc, h, hne]
  · intro res cmd tid ini mask val rv h hne
    simp [receive_twopc, h, hne]
  · intro res tid ini mask val rv h ht
    cases rv <;> simp [receive_twopc, h, ht]
  · intro res tid ini mask val rv1 rv2 h
    cases rv1 <;> cases rv2 <;>
      simp [receive_twopc, h, apply_mask_val_idem]

/-- C8 witness: a fresh Prepare with a successful verdict followed by the
duplicate-tolerant Prepare+Commit+Prepare+Commit sequence, at concrete
inputs. -/
theorem receive_twopc_spec_witness :
    receive_twopc ⟨false, 0, 0, false, 5⟩ .P_TWOPC_PREPARE 9 3 12 4 .ss_success =
      (⟨true, 9, 3, true, 5⟩, .P_TWOPC_YES) ∧
    (receive_twopc
      (receive_twopc
        (receive_twopc
          (receive_twopc ⟨false, 0, 0, false, 5⟩ .P_TWOPC_PREPARE 9 3 12 4 .ss_success).1
          .P_TWOPC_COMMIT 9 3 12 4 .ss_success).1
        .P_TWOPC_PREPARE 9 3 12 4 .ss_success).1
      .P_TWOPC_COMMIT 9 3 12 4 .ss_success).1 =
    (receive_twopc
      (receive_twopc ⟨false, 0, 0, false, 5⟩ .P_TWOPC_PREPARE 9 3 12 4 .ss_success).1
      .P_TWOPC_COMMIT 9 3 12 4 .ss_success).1 := by
  constructor
  · have h := (receive_twopc_spec.2.2.2.1 ⟨false, 0, 0, false, 5⟩ 9 3 12 4 .ss_success
      rfl rfl)
    decide
  · exact receive_twopc_spec.2.2.2.2 ⟨false, 0, 0, false, 5⟩ 9 3 12 4
      .ss_success .ss_success rfl

/-- C10: read_in_block refuses to create a peer request (returns NULL)
whenever the effective payload size is not a multiple of 512, a non-trim
payload exceeds DRBD_MAX_BIO_SIZE, the request end lies beyond the device
capacity, or (with integrity checking on a non-trim packet) the digest
comparison fails. -/
theorem read_in_block_refuses (capacity sector pi_size : Nat) (trim : Bool)
    (trim_size : Nat) (integrity : Bool) (dgs : Nat) (digest_ok : Bool)
    (d : Int)
    (hd : d = (if trim then (trim_size : Int)
               else (pi_size : Int) - ((if ¬trim ∧ integrity then dgs else 0 : Nat) : Int))) :
    (¬(d % 512 = 0) →
      read_in_block capacity sector pi_size trim trim_size integrity dgs digest_ok = none) ∧
    (¬trim → (DRBD_MAX_BIO_SIZE : Int) < d →
      read_in_block capacity sector pi_size trim trim_size integrity dgs digest_ok = none) ∧
    ((capacity : Int) < ((sector : Int) + d.fdiv 512) % (2 ^ 64) →
      read_in_block capacity sector pi_size trim trim_size integrity dgs digest_ok = none) ∧
    (¬trim → integrity → dgs ≠ 0 → digest_ok = false →
      read_in_block capacity sector pi_size trim trim_size integrity dgs digest_ok = none) := by
  simp only [read_in_block]
  rw [← hd]
  refine ⟨?_, ?_, ?_, ?_⟩
  · intro h
    simp [h]
  · intro htrim hbig
    split_ifs <;> first | rfl | (exfalso; omega) | (exfalso; tauto)
  · intro hcap
    split_ifs <;> first | rfl | (exfalso; omega) | (exfalso; tauto)
  · intro htrim hint hdgs hok
    split_ifs with h1 h2 h3 h4 h5 <;>
      first
        | rfl
        | (exfalso; simp [htrim, hint, hdgs, hok] at *)
        | (exfalso; simp [htrim, hint, hdgs, hok] at *; tauto)

/-- C10 witness: a 100-byte (unaligned) non-trim payload is refused. -/
theorem read_in_block_refuses_witness :
    read_in_block 1000 0 100 false 0 false 0 true = none :=
  (read_in_block_refuses 1000 0 100 false 0 false 0 true 100 (by decide)).1 (by decide)

theorem rle_loop_bm_eq (vli : List Bool → Option (Nat × Nat)) (bm_bits : Nat) :
    ∀ (fuel : Nat) (bits : List Bool) (toggle : Bool) (s bm : Nat),
      (rle_loop vli bm_bits fuel bits toggle s bm).bm =
        (rle_segments vli bm_bits fuel bits toggle s).foldl
          (fun acc seg => acc ||| bitmask seg.1 seg.2) bm := by
  intro fuel
  induction fuel with
  | zero =>
      intro bits toggle s bm
      cases bits <;> simp [rle_loop, rle_segments]
  | succ fuel ih =>
      intro bits toggle s bm
      cases bits with
      | nil => simp [rle_loop, rle_segments]
      | cons b bs =>
          simp only [rle_loop, rle_segments]
          cases hv : vli (b :: bs) with
          | none => simp
          | some p =>
              obtain ⟨rl, n⟩ := p
              cases toggle <;> simp only [Bool.false_eq_true, if_false, if_true, Bool.not_false,
                Bool.not_true, ite_true, ite_false] <;> split_ifs <;> simp [ih]

theorem rle_segments_bounded (vli : List Bool → Option (Nat × Nat)) (bm_bits : Nat) :
    ∀ (fuel : Nat) (bits : List Bool) (toggle : Bool) (s : Nat),
      ∀ seg ∈ rle_segments vli bm_bits fuel bits toggle s, seg.2 < bm_bits := by
  intro fuel
  induction fuel with
  | zero =>
      intro bits toggle s seg hseg
      cases bits <;> simp [rle_segments] at hseg
  | succ fuel ih =>
      intro bits toggle s seg hseg
      cases bits with
      | nil => simp [rle_segments] at hseg
      | cons b bs =>
          rcases hv : vli (b :: bs) with _ | ⟨rl, n⟩
          · simp [rle_segments, hv] at hseg
          · simp only [rle_segments, hv] at hseg
            cases toggle with
            | false =>
                simp only [Bool.false_eq_true, if_false] at hseg
                split_ifs at hseg with h1
                · simp at hseg
                · exact ih _ _ _ seg hseg
            | true =>
                simp only [if_true] at hseg
                split_ifs at hseg with h1 h2
                · simp at hseg
                · simp at hseg
                  subst hseg
                  simp only []
                  omega
                · simp at hseg
                  rcases hseg with rfl | h
                  · simp only []
                    omega
                  · exact ih _ _ _ seg h

theorem rle_loop_done_iff (vli : List Bool → Option (Nat × Nat)) (bm_bits : Nat) :
    ∀ (fuel : Nat) (bits : List Bool) (toggle : Bool) (s bm : Nat),
      (rle_loop vli bm_bits fuel bits toggle s bm).err = false →
      ((rle_loop vli bm_bits fuel bits toggle s bm).done = true ↔
        (rle_loop vli bm_bits fuel bits toggle s bm).bit_offset = bm_bits) := by
  intro fuel
  induction fuel with
  | zero =>
      intro bits toggle s bm herr
      cases bits <;> simp_all [rle_loop]
  | succ fuel ih =>
      intro bits toggle s bm herr
      cases bits with
      | nil => simp_all [rle_loop]
      | cons b bs =>
          rcases hv : vli (b :: bs) with _ | ⟨rl, n⟩
          · simp [rle_loop, hv] at herr
          · simp only [rle_loop, hv] at herr ⊢
            cases toggle with
            | false =>
                simp only [Bool.false_eq_true, if_false] at herr ⊢
                split_ifs at herr ⊢ with h1
                all_goals first
                  | exact ih _ _ _ _ herr
                  | simp_all
            | true =>
                simp only [if_true] at herr ⊢
                split_ifs at herr ⊢ with h1 h2
                all_goals first
                  | exact ih _ _ _ _ herr
                  | simp_all

/-- C9: the RLE-compressed bitmap decoder.  Conjuncts: (1) the loop ORs
exactly the set segments of the alternating run decomposition into the
bitmap (starting from the transmitted start toggle); (2) every set segment
it applies ends below the bitmap bit count; (3) an error-free decode is
complete (return 0) exactly when the accumulated bit offset reaches the
total bit count; (4) a set run reaching past the bit count fails with -EIO;
(5) an unknown encoding code fails with -EIO and switches the connection to
C_PROTOCOL_ERROR; (6) a RLE_VLI_Bits packet is decoded over the payload
bitstream with the header byte's pad count and start bit honoured. -/
theorem recv_bm_rle_bits_spec :
    (∀ (vli : List Bool → Option (Nat × Nat)) (bm_bits fuel : Nat) (bits : List Bool)
        (toggle : Bool) (s bm : Nat),
      (rle_loop vli bm_bits fuel bits toggle s bm).bm =
        (rle_segments vli bm_bits fuel bits toggle s).foldl
          (fun acc seg => acc ||| bitmask seg.1 seg.2) bm) ∧
    (∀ (vli : List Bool → Option (Nat × Nat)) (bm_bits fuel : Nat) (bits : List Bool)
        (toggle : Bool) (s : Nat),
      ∀ seg ∈ rle_segments vli bm_bits fuel bits toggle s, seg.2 < bm_bits) ∧
    (∀ (vli : List Bool → Option (Nat × Nat)) (bm_bits fuel : Nat) (bits : List Bool)
        (toggle : Bool) (s bm : Nat),
      (rle_loop vli bm_bits fuel bits toggle s bm).err = false →
      ((rle_loop vli bm_bits fuel bits toggle s bm).done = true ↔
        (rle_loop vli bm_bits fuel bits toggle s bm).bit_offset = bm_bits)) ∧
    (∀ (vli : List Bool → Option (Nat × Nat)) (bm_bits fuel : Nat) (b : Bool)
        (bs : List Bool) (rl n s bm : Nat),
      vli (b :: bs) = some (rl, n) → bm_bits ≤ s + rl - 1 →
      (rle_loop vli bm_bits (fuel + 1) (b :: bs) true s bm).err = true) ∧
    (∀ (vli : List Bool → Option (Nat × Nat)) (bm_bits encoding : Nat)
        (payload : List Nat) (bit_offset bm : Nat),
      dcbp_get_code encoding ≠ RLE_VLI_Bits →
      decode_bitmap_c vli bm_bits encoding payload bit_offset bm =
        (⟨true, bit_offset, bm, false⟩, true)) ∧
    (∀ (vli : List Bool → Option (Nat × Nat)) (bm_bits encoding : Nat)
        (payload : List Nat) (bit_offset bm : Nat),
      dcbp_get_code encoding = RLE_VLI_Bits →
      decode_bitmap_c vli bm_bits encoding payload bit_offset bm =
        (rle_loop vli bm_bits
          ((bitstream_of_bytes payload (dcbp_get_pad_bits encoding)).length + 1)
          (bitstream_of_bytes payload (dcbp_get_pad_bits encoding))
          (dcbp_get_start encoding) bit_offset bm, false)) := by
  refine ⟨?_, ?_, ?_, ?_, ?_, ?_⟩
  · intro vli bm_bits fuel bits toggle s bm
    exact rle_loop_bm_eq vli bm_bits fuel bits toggle s bm
  · intro vli bm_bits fuel bits toggle s seg hseg
    exact rle_segments_bounded vli bm_bits fuel bits toggle s seg hseg
  · intro vli bm_bits fuel bits toggle s bm herr
    exact rle_loop_done_iff vli bm_bits fuel bits toggle s bm herr
  · intro vli bm_bits fuel b bs rl n s bm hv hover
    simp [rle_loop, hv, hover]
  · intro vli bm_bits encoding payload bit_offset bm hcode
    simp [decode_bitmap_c, hcode]
  · intro vli bm_bits encoding payload bit_offset bm hcode
    simp [decode_bitmap_c, hcode, recv_bm_rle_bits]

/-- C9 witness: a concrete two-run stream (set run of 3, clear run of 3)
over a 6-bit bitmap decodes completely, setting bits 0-2. -/
theorem recv_bm_rle_bits_spec_witness :
    ((rle_loop (fun bits => match bits with | [] => none | _ :: _ => some (3, 1))
        6 3 [true, false] true 0 0).done = true ↔
      (rle_loop (fun bits => match bits with | [] => none | _ :: _ => some (3, 1))
        6 3 [true, false] true 0 0).bit_offset = 6) ∧
    rle_loop (fun bits => match bits with | [] => none | _ :: _ => some (3, 1))
        6 3 [true, false] true 0 0 = ⟨false, 6, 7, true⟩ :=
  ⟨recv_bm_rle_bits_spec.2.2.1
      (fun bits => match bits with | [] => none | _ :: _ => some (3, 1))
      6 3 [true, false] true 0 0 (by decide),
   by decide⟩

end Drbd
